import Mathlib

/-!
Verification of the election-information backend (src/index.mjs).

The repository file contains two full versions of the same Express server,
separated by a document separator: the first version (lines 1-278) and a
second revised version (lines 279-519).  Both define a class
`ManifestoOutputParser` with a method `parseOutput`, a helper
`formatConversationHistory`, and a `POST /query` route handler.

The shallow embedding below models:
  * JavaScript JSON values (`Json`, with mutual inductives for arrays and
    object field lists so that all recursion stays structural and every
    closed computation reduces in the kernel);
  * `JSON.parse` (`jsonParse`, a fuel-indexed recursive-descent reader of
    the RFC 8259 grammar; duplicate object keys keep the last value at the
    first position, as JavaScript property assignment does; numbers keep
    their source literal, which is faithful for every property the claims
    exercise since the code never inspects numeric magnitudes other than
    through truthiness);
  * `JSON.stringify(v, null, 2)` (`jsonStringify2`);
  * both `parseOutput` variants, `formatConversationHistory`, and the
    `POST /query` handler with the agent and its initialization treated as
    oracles (`Except` parameters), since their outcomes are produced by
    external collaborators (MongoDB, OpenAI).
-/

namespace ElectionInfo

/-- The left-brace character, code point 123. -/
def lbrace : Char := Char.ofNat 123

/-- The right-brace character, code point 125. -/
def rbrace : Char := Char.ofNat 125

mutual
/-- A JavaScript JSON value as produced by `JSON.parse`. -/
inductive Json where
  | null
  | bool (b : Bool)
  | num (lit : String)
  | str (s : String)
  | arr (items : JsonList)
  | obj (fields : JsonFields)

/-- A list of JSON values (array elements). -/
inductive JsonList where
  | nil
  | cons (head : Json) (tail : JsonList)

/-- An ordered association list of object properties. -/
inductive JsonFields where
  | nil
  | cons (key : String) (val : Json) (tail : JsonFields)
end

deriving instance DecidableEq for Json

/-- Whether an array is empty (so `length > 0` fails). -/
def JsonList.isNil : JsonList → Bool
  | .nil => true
  | .cons _ _ => false

/-- Convert an embedded JSON array to a Lean list of values. -/
def JsonList.toList : JsonList → List Json
  | .nil => []
  | .cons h t => h :: t.toList

/-- Property lookup on an object field list (keys are unique after parsing). -/
def JsonFields.lookup : JsonFields → String → Option Json
  | .nil, _ => none
  | .cons k v t, key => if k = key then some v else t.lookup key

/-- Property assignment: overwrite an existing key in place (keeping its
    original position, as JavaScript does) or append a new one. -/
def JsonFields.insert : JsonFields → String → Json → JsonFields
  | .nil, k, v => .cons k v .nil
  | .cons k' v' t, k, v =>
      if k' = k then .cons k' v t else .cons k' v' (t.insert k v)

/-- JavaScript property access `j.key`: `some` models a present property,
    `none` models `undefined`.  Primitives and arrays have none of the
    properties the code reads; access on `null` throws and is handled at
    each use site. -/
def Json.getField : Json → String → Option Json
  | .obj fs, key => fs.lookup key
  | _, _ => none

/-! ### A model of JSON.parse (RFC 8259, fuel-structural) -/

/-- JSON insignificant whitespace. -/
def isWs (c : Char) : Bool := [' ', '\t', '\n', '\r'].contains c

/-- Drop leading JSON whitespace. -/
def skipWs (cs : List Char) : List Char := cs.dropWhile isWs

/-- Split off the longest digit prefix. -/
def takeDigits (cs : List Char) : List Char × List Char := cs.span Char.isDigit

/-- Value of one hex digit, working on code points: `0`-`9` are 48-57,
    `a`-`f` are 97-102, `A`-`F` are 65-70. -/
def hexVal (c : Char) : Option Nat :=
  let n := c.toNat
  if 48 ≤ n ∧ n ≤ 57 then some (n - 48)
  else if 97 ≤ n ∧ n ≤ 102 then some (n - 87)
  else if 65 ≤ n ∧ n ≤ 70 then some (n - 55)
  else none

/-- The character named by a single-character JSON escape: quote, backslash
    and slash name themselves; `b`, `f`, `n`, `r`, `t` name the usual
    control characters; anything else is a `SyntaxError`. -/
def escChar (e : Char) : Option Char :=
  if e = '"' ∨ e = '\\' ∨ e = '/' then some e
  else if e = 'n' then some '\n'
  else if e = 't' then some '\t'
  else if e = 'r' then some '\r'
  else if e = 'b' then some (Char.ofNat 0x08)
  else if e = 'f' then some (Char.ofNat 0x0c)
  else none

/-- Read the body of a JSON string after the opening quote, structurally on
    the input; `acc` holds the characters read so far, reversed. -/
def readStringBody (acc : List Char) : List Char → Option (String × List Char)
  | [] => none
  | '"' :: rest => some (String.mk acc.reverse, rest)
  | '\\' :: 'u' :: a :: b :: c :: d :: rest =>
      match hexVal a, hexVal b, hexVal c, hexVal d with
      | some va, some vb, some vc, some vd =>
          readStringBody (Char.ofNat (((va * 16 + vb) * 16 + vc) * 16 + vd) :: acc) rest
      | _, _, _, _ => none
  | '\\' :: e :: rest =>
      match escChar e with
      | some ch => readStringBody (ch :: acc) rest
      | none => none
  | c :: rest =>
      if c.toNat < 32 then none else readStringBody (c :: acc) rest

/-- Read a JSON number literal (returning the literal text consumed), per the
    grammar `-? (0 | [1-9][0-9]*) (\.[0-9]+)? ([eE][+-]?[0-9]+)?`. -/
def readNumber (cs : List Char) : Option (String × List Char) :=
  let (sign, cs1) : List Char × List Char :=
    match cs with
    | '-' :: r => (['-'], r)
    | _ => ([], cs)
  match cs1 with
  | [] => none
  | c :: rest =>
      if c = '0' then
        readNumberFrac (sign ++ ['0']) rest
      else if c.isDigit then
        let (ds, r) := takeDigits rest
        readNumberFrac (sign ++ (c :: ds)) r
      else none
where
  /-- Optional fraction part, then exponent. -/
  readNumberFrac (intPart : List Char) (cs : List Char) : Option (String × List Char) :=
    match cs with
    | '.' :: r =>
        match takeDigits r with
        | ([], _) => none
        | (ds, r2) => readNumberExp (intPart ++ ('.' :: ds)) r2
    | _ => readNumberExp intPart cs
  /-- Optional exponent part. -/
  readNumberExp (mantissa : List Char) (cs : List Char) : Option (String × List Char) :=
    match cs with
    | 'e' :: r => readNumberExpRest (mantissa ++ ['e']) r
    | 'E' :: r => readNumberExpRest (mantissa ++ ['E']) r
    | _ => some (String.mk mantissa, cs)
  /-- Sign and digits of the exponent. -/
  readNumberExpRest (pre : List Char) (cs : List Char) : Option (String × List Char) :=
    let (sgn, r1) : List Char × List Char :=
      match cs with
      | '+' :: r => (['+'], r)
      | '-' :: r => (['-'], r)
      | _ => ([], cs)
    match takeDigits r1 with
    | ([], _) => none
    | (ds, r2) => some (String.mk (pre ++ sgn ++ ds), r2)

mutual
/-- Read one JSON value; recursion is structural on `fuel`.  Each recursive
    descent consumes at least one character, so `input length + 1` fuel is
    always enough. -/
def readValue : Nat → List Char → Option (Json × List Char)
  | 0, _ => none
  | fuel + 1, cs =>
      match skipWs cs with
      | [] => none
      | c :: rest =>
          if c = lbrace then
            match skipWs rest with
            | [] => none
            | c2 :: rest2 =>
                if c2 = rbrace then some (.obj .nil, rest2)
                else readMembers fuel (c2 :: rest2) .nil
          else if c = '[' then
            match skipWs rest with
            | [] => none
            | c2 :: rest2 =>
                if c2 = ']' then some (.arr .nil, rest2)
                else
                  match readElems fuel (c2 :: rest2) with
                  | some (items, r) => some (.arr items, r)
                  | none => none
          else if c = '"' then
            match readStringBody [] rest with
            | some (s, r) => some (.str s, r)
            | none => none
          else
            match c :: rest with
            | 'n' :: 'u' :: 'l' :: 'l' :: r => some (.null, r)
            | 't' :: 'r' :: 'u' :: 'e' :: r => some (.bool true, r)
            | 'f' :: 'a' :: 'l' :: 's' :: 'e' :: r => some (.bool false, r)
            | cs' =>
                match readNumber cs' with
                | some (lit, r) => some (.num lit, r)
                | none => none

/-- Read one-or-more comma-separated array elements up to the closing
    bracket (the empty array is handled in `readValue`). -/
def readElems : Nat → List Char → Option (JsonList × List Char)
  | 0, _ => none
  | fuel + 1, cs =>
      match readValue fuel cs with
      | none => none
      | some (v, r) =>
          match skipWs r with
          | ',' :: r2 =>
              match readElems fuel (skipWs r2) with
              | some (tl, r3) => some (.cons v tl, r3)
              | none => none
          | ']' :: r2 => some (.cons v .nil, r2)
          | _ => none

/-- Read one-or-more comma-separated object members up to the closing brace
    (the empty object is handled in `readValue`); `acc` carries the
    properties assigned so far, with JavaScript last-wins semantics. -/
def readMembers : Nat → List Char → JsonFields → Option (Json × List Char)
  | 0, _, _ => none
  | fuel + 1, cs, acc =>
      match cs with
      | '"' :: rest =>
          match readStringBody [] rest with
          | none => none
          | some (key, r) =>
              match skipWs r with
              | ':' :: r2 =>
                  match readValue fuel r2 with
                  | none => none
                  | some (v, r3) =>
                      match skipWs r3 with
                      | ',' :: r4 => readMembers fuel (skipWs r4) (acc.insert key v)
                      | c3 :: r4 =>
                          if c3 = rbrace then some (.obj (acc.insert key v), r4)
                          else none
                      | [] => none
              | _ => none
      | _ => none
end

/-- The model of `JSON.parse`: read one value, then require only trailing
    whitespace.  `none` models a thrown `SyntaxError`. -/
def jsonParse (s : String) : Option Json :=
  match readValue (s.length + 1) s.toList with
  | some (v, rest) =>
      match skipWs rest with
      | [] => some v
      | _ => none
  | none => none

/-! ### The Output Normalizer: class ManifestoOutputParser, both variants -/

/-- What `parseOutput` hands back to the route handler: either the parsed
    value returned unchanged (`return parsedResponse`), or one of the
    fallback object literals, which all have shape
    `(type: "fallback", output: msg)`. -/
inductive Response where
  | passthrough (j : Json)
  | fallback (output : String)
deriving DecidableEq

/-- The fixed parse-failure message of the catch block (first variant,
    line 63) and of the final return (second variant, line 336). -/
def parseFailureMsg : String := "Failed to retrieve a valid response."

/-- The semantic-fallback message of the first variant, line 52. -/
def comparisonFallbackMsg : String :=
  "The comparison did not retrieve enough details. Please try a different query."

/-- First variant of `ManifestoOutputParser.parseOutput` (lines 37-71).
    `JSON.parse` failure is caught and yields the fixed message; a parse
    result of `null` makes the later property access `parsedResponse.type`
    throw a TypeError, which the same catch block absorbs into the same
    fixed message.  A `type` of `"Comparison"` passes the value through when
    `ComparisonArray` is a non-empty array (an array is always truthy, so
    the conjunction reduces to exactly that) and otherwise returns the
    semantic-fallback message.  A `type` of `"normal"` passes the value
    through when `output` is a truthy string, i.e. a non-empty string;
    otherwise control falls out of the try block to the final return, which
    echoes the raw input.  Every other parse result also reaches that final
    echoing return. -/
def parseOutput (output : String) : Response :=
  match jsonParse output with
  | none => .fallback parseFailureMsg
  | some .null => .fallback parseFailureMsg
  | some parsedResponse =>
      match parsedResponse.getField "type" with
      | some (.str t) =>
          if t = "Comparison" then
            match parsedResponse.getField "ComparisonArray" with
            | some (.arr items) =>
                if items.isNil then .fallback comparisonFallbackMsg
                else .passthrough parsedResponse
            | _ => .fallback comparisonFallbackMsg
          else if t = "normal" then
            match parsedResponse.getField "output" with
            | some (.str s) =>
                if s = "" then .fallback output else .passthrough parsedResponse
            | _ => .fallback output
          else .fallback output
      | _ => .fallback output

/-- Second variant of `ManifestoOutputParser.parseOutput` (lines 318-337).
    The catch block only logs, so a parse failure (and the TypeError thrown
    by destructuring `null`) falls through to the single final return of the
    fixed message; there is no echoing branch and no semantic-fallback
    message.  The `normal` check uses only `typeof normalOutput ===
    "string"`, so the empty string passes through here. -/
def parseOutput2 (output : String) : Response :=
  match jsonParse output with
  | none => .fallback parseFailureMsg
  | some .null => .fallback parseFailureMsg
  | some parsedResponse =>
      match parsedResponse.getField "type" with
      | some (.str t) =>
          if t = "Comparison" then
            match parsedResponse.getField "ComparisonArray" with
            | some (.arr items) =>
                if items.isNil then .fallback parseFailureMsg
                else .passthrough parsedResponse
            | _ => .fallback parseFailureMsg
          else if t = "normal" then
            match parsedResponse.getField "output" with
            | some (.str _) => .passthrough parsedResponse
            | _ => .fallback parseFailureMsg
          else .fallback parseFailureMsg
      | _ => .fallback parseFailureMsg

/-- A value fits the `Comparison` shape the code checks for: discriminant
    `"Comparison"` and a non-empty `ComparisonArray` array. -/
def Json.isValidComparison (j : Json) : Bool :=
  match j.getField "type", j.getField "ComparisonArray" with
  | some (.str t), some (.arr items) => t = "Comparison" && !items.isNil
  | _, _ => false

/-- A value fits the `normal` shape the code checks for: discriminant
    `"normal"` and a string-typed `output` field. -/
def Json.isValidNormal (j : Json) : Bool :=
  match j.getField "type", j.getField "output" with
  | some (.str t), some (.str _) => t = "normal"
  | _, _ => false

/-- A value fits the `normal` shape with a non-empty (truthy) `output`
    string, which is what the first variant actually requires. -/
def Json.isValidNormalNonempty (j : Json) : Bool :=
  match j.getField "type", j.getField "output" with
  | some (.str t), some (.str s) => t = "normal" && !(s = "")
  | _, _ => false

/-- A normalizer result is one of the three canonical shapes: a fallback
    object, or a passed-through value that fits the `Comparison` or the
    `normal` shape. -/
def Response.isCanonical : Response → Bool
  | .fallback _ => true
  | .passthrough j => j.isValidComparison || j.isValidNormal

/-! ### A model of JSON.stringify(v, null, 2) -/

/-- `n` spaces of indentation. -/
def pad (n : Nat) : String := String.mk (List.replicate n ' ')

/-- Escape one character the way `JSON.stringify` quotes string contents. -/
def escapeChar (c : Char) : String :=
  if c = '"' then "\\\""
  else if c = '\\' then "\\\\"
  else if c = '\n' then "\\n"
  else if c = '\r' then "\\r"
  else if c = '\t' then "\\t"
  else if c = Char.ofNat 8 then "\\b"
  else if c = Char.ofNat 12 then "\\f"
  else if c.toNat < 32 then
    "\\u00" ++ String.mk [(Nat.digitChar (c.toNat / 16)), (Nat.digitChar (c.toNat % 16))]
  else String.mk [c]

/-- Quote a string the way `JSON.stringify` does. -/
def quoteString (s : String) : String :=
  "\"" ++ String.join (s.toList.map escapeChar) ++ "\""

mutual
/-- Render a value at indentation level `ind`, as `JSON.stringify(v, null,
    2)` does (numbers keep their source literal). -/
def Json.render (ind : Nat) : Json → String
  | .null => "null"
  | .bool true => "true"
  | .bool false => "false"
  | .num lit => lit
  | .str s => quoteString s
  | .arr .nil => "[]"
  | .arr (.cons h t) =>
      "[\n" ++ pad (ind + 2) ++ Json.render (ind + 2) h
        ++ JsonList.renderRest (ind + 2) t ++ "\n" ++ pad ind ++ "]"
  | .obj .nil => "\x7b\x7d"
  | .obj (.cons k v t) =>
      "\x7b\n" ++ pad (ind + 2) ++ quoteString k ++ ": " ++ Json.render (ind + 2) v
        ++ JsonFields.renderRest (ind + 2) t ++ "\n" ++ pad ind ++ "\x7d"

/-- Render the second and later array elements, each preceded by `,\n` and
    indentation. -/
def JsonList.renderRest (ind : Nat) : JsonList → String
  | .nil => ""
  | .cons h t => ",\n" ++ pad ind ++ Json.render ind h ++ JsonList.renderRest ind t

/-- Render the second and later object members, each preceded by `,\n` and
    indentation. -/
def JsonFields.renderRest (ind : Nat) : JsonFields → String
  | .nil => ""
  | .cons k v t =>
      ",\n" ++ pad ind ++ quoteString k ++ ": " ++ Json.render ind v
        ++ JsonFields.renderRest ind t
end

/-- `JSON.stringify(v, null, 2)` at top level. -/
def jsonStringify2 (j : Json) : String := j.render 0

/-- What a template literal interpolates for `JSON.stringify(x, null, 2)`:
    a missing property stringifies to the value `undefined`, which the
    template coerces to the text `undefined`. -/
def templateStringify : Option Json → String
  | none => "undefined"
  | some j => jsonStringify2 j

/-! ### The History Formatter: formatConversationHistory (lines 75-95) -/

/-- One message of the agent-facing wire format.  `content` is the value of
    a JavaScript property and may be `undefined` (`none`) when the source
    entry lacks the field the code copies from. -/
structure AgentMessage where
  role : String
  content : Option Json
deriving DecidableEq

/-- The error message of the TypeError thrown by reading a property of
    `null`. -/
def nullTypeErrorMsg : String := "TypeError: Cannot read properties of null"

/-- The branch logic of the `history.map` callback (lines 77-93), checked
    in source order: `type === 'Comparison'` gives an assistant message
    whose content interpolates `JSON.stringify(message.ComparisonArray,
    null, 2)` into a template literal; then `type === 'normal'` gives an
    assistant message carrying `message.output`; then `role === 'human'`
    gives a human message carrying `message.input`; anything else maps to
    `null` (here `Option.none`), which the trailing `filter` drops.  (The
    `null` entry case is unreachable through `formatMessage`, which throws
    first; it is mapped to `none` to keep this map total.) -/
def formatEntry (message : Json) : Option AgentMessage :=
  match message with
  | .null => none
  | _ =>
      if message.getField "type" = some (.str "Comparison") then
        some ⟨"assistant",
          some (.str ("Comparison: "
            ++ templateStringify (message.getField "ComparisonArray")))⟩
      else if message.getField "type" = some (.str "normal") then
        some ⟨"assistant", message.getField "output"⟩
      else if message.getField "role" = some (.str "human") then
        some ⟨"human", message.getField "input"⟩
      else none

/-- The full `history.map` callback: reading `message.type` on a `null`
    entry throws a TypeError (modelled as `Except.error`); on any other
    entry the property reads cannot throw and the callback returns the
    branch result of `formatEntry`. -/
def formatMessage (message : Json) : Except String (Option AgentMessage) :=
  match message with
  | .null => .error nullTypeErrorMsg
  | _ => .ok (formatEntry message)

/-- `formatConversationHistory` (lines 75-95): map each entry through the
    callback — a thrown TypeError propagates out of `map`, aborting at the
    first offending entry — then filter out the `null` placeholders. -/
def formatConversationHistory (history : List Json) : Except String (List AgentMessage) :=
  match history.mapM formatMessage with
  | .error e => .error e
  | .ok msgs => .ok (msgs.filterMap id)

/-! ### The Turn Orchestrator: the POST /query handler (lines 235-273) -/

/-- JavaScript truthiness of a destructured request field (`none` models a
    missing property, i.e. `undefined`).  A number is falsy exactly when its
    value is zero; on a JSON numeric literal that holds exactly when every
    mantissa digit is `0` (the exponent cannot make a zero non-zero or vice
    versa, and `NaN` is not expressible in JSON). -/
def numLitIsZero (lit : String) : Bool :=
  match lit.toList.splitOnP (fun c => c = 'e' || c = 'E') with
  | mantissa :: _ =>
      (mantissa.filter fun c => !(c = '-') && !(c = '.')).all (fun c => c = '0')
  | [] => true

/-- JavaScript truthiness of `input` in `if (!input || ...)`. -/
def truthy : Option Json → Bool
  | none => false
  | some .null => false
  | some (.bool b) => b
  | some (.num lit) => !numLitIsZero lit
  | some (.str s) => !(s = "")
  | some (.arr _) => true
  | some (.obj _) => true

/-- `Array.isArray(chat_history)` on the destructured field. -/
def isArrayOpt : Option Json → Bool
  | some (.arr _) => true
  | _ => false

/-- The elements of `chat_history` once `Array.isArray` has passed. -/
def historyList : Option Json → List Json
  | some (.arr items) => items.toList
  | _ => []

/-- The collaborator calls the handler makes, in order, used to state that a
    rejected request touches no collaborator. -/
inductive CollabCall where
  | agentInit
  | agentInvoke
deriving DecidableEq

/-- The 400 message of the validation branch (line 240). -/
def requiredErrorMsg : String := "Input and chat history are required"

/-- The 500 message of the catch branch (line 271). -/
def processingErrorMsg : String := "An error occurred while processing the query"

/-- What the route handler does with the HTTP response.  `uncaught` models
    an `await` rejection escaping the handler entirely: no `res` method is
    called, so no status or body is sent by the handler at all. -/
inductive HandlerResult where
  | badRequest (error : String)
  | ok (response : Response) (chat_history : List Json)
  | serverError (error : String)
  | uncaught (error : String)
deriving DecidableEq

/-- `{ role: "human", input }` as appended to the updated history. -/
def humanEntry (input : Option Json) : Json :=
  .obj (.cons "role" (.str "human") (.cons "input" (input.getD .null) .nil))

/-- The JavaScript value a `Response` denotes, for storing in the returned
    history: a passthrough is the parsed value itself; a fallback is the
    object literal `(type: "fallback", output: msg)`. -/
def Response.toJson : Response → Json
  | .passthrough j => j
  | .fallback msg =>
      .obj (.cons "type" (.str "fallback") (.cons "output" (.str msg) .nil))

/-- The `POST /query` handler of the first variant (lines 235-273).

    `input` and `chat_history` are the destructured body fields; the two
    external collaborators are oracles: `initResult` is the outcome of
    `await initializeAgent()` and `invokeResult` the outcome of `await
    agentExecutor.invoke(...)` (its `.output` string on success; an
    agent-invocation or underlying retrieval failure is an `error`).

    Control flow, faithfully: the validation test `!input ||
    !Array.isArray(chat_history)` answers 400 before anything else runs; the
    `await initializeAgent()` on line 243 sits OUTSIDE the try block, so its
    rejection escapes the handler (`uncaught`); inside the try,
    `formatConversationHistory` may throw (null history entry), and the
    agent invocation may fail, both answered with the 500 catch; on success
    the handler answers 200 with the normalized response and
    `[...chat_history, (role: "human", input), parsedAgentResponse]`.

    Alongside the result, the list of collaborator calls actually made is
    returned, in order. -/
def postQuery (input chat_history : Option Json)
    (initResult : Except String Unit) (invokeResult : Except String String) :
    HandlerResult × List CollabCall :=
  if !truthy input || !isArrayOpt chat_history then
    (.badRequest requiredErrorMsg, [])
  else
    match initResult with
    | .error e => (.uncaught e, [.agentInit])
    | .ok _ =>
        match formatConversationHistory (historyList chat_history) with
        | .error _ => (.serverError processingErrorMsg, [.agentInit])
        | .ok _ =>
            match invokeResult with
            | .error _ => (.serverError processingErrorMsg, [.agentInit, .agentInvoke])
            | .ok raw =>
                let parsedAgentResponse := parseOutput raw
                (.ok parsedAgentResponse
                  (historyList chat_history
                    ++ [humanEntry input, parsedAgentResponse.toJson]),
                 [.agentInit, .agentInvoke])

/-! ### Claim-side predicates (stating the spec's words, for comparison) -/

/-- The spec's validation requirement on `input`: a non-empty string. -/
def isNonEmptyStringOpt : Option Json → Bool
  | some (.str s) => !(s = "")
  | _ => false

/-- The parse results on which the first `parseOutput` variant reaches its
    final echoing return: any non-null value whose discriminant is neither
    `"Comparison"` nor `"normal"` (including non-objects), or whose
    discriminant is `"normal"` with an `output` field that is missing,
    non-string, or the empty string. -/
def echoDomain : Json → Bool
  | .null => false
  | j =>
      match j.getField "type" with
      | some (.str t) =>
          if t = "Comparison" then false
          else if t = "normal" then
            match j.getField "output" with
            | some (.str s) => s = ""
            | _ => true
          else true
      | _ => true

/-- The inputs on which the two `parseOutput` variants coincide: parse
    failures, a parse result of `null`, and the two pass-through shapes
    (a well-formed `Comparison`, or a `normal` whose `output` is a
    non-empty string). -/
def variantsAgree (s : String) : Bool :=
  match jsonParse s with
  | none => true
  | some .null => true
  | some j => j.isValidComparison || j.isValidNormalNonempty

/-! ## Shared lemmas about the Output Normalizer branches -/

/-- On a well-formed `Comparison` parse result, the first variant passes the
    parsed value through unchanged. -/
theorem parseOutput_validComparison (s : String) (j : Json)
    (hparse : jsonParse s = some j) (hval : j.isValidComparison = true) :
    parseOutput s = .passthrough j := by
  unfold parseOutput
  rw [hparse]
  cases j with
  | null => simp [Json.isValidComparison, Json.getField] at hval
  | bool b => simp [Json.isValidComparison, Json.getField] at hval
  | num l => simp [Json.isValidComparison, Json.getField] at hval
  | str s2 => simp [Json.isValidComparison, Json.getField] at hval
  | arr xs => simp [Json.isValidComparison, Json.getField] at hval
  | obj fs =>
      rcases hT : Json.getField (Json.obj fs) "type" with _ | jT
      · simp [Json.isValidComparison, hT] at hval
      · rcases hCA : Json.getField (Json.obj fs) "ComparisonArray" with _ | jCA
        · simp [Json.isValidComparison, hT, hCA] at hval
        · cases jT <;> simp [Json.isValidComparison, hT, hCA] at hval
          case str t =>
            cases jCA <;> simp at hval
            case arr items =>
              obtain ⟨ht, hni⟩ := hval
              subst ht
              simp [hT, hCA, hni]

/-- On a `normal` parse result with a non-empty string `output`, the first
    variant passes the parsed value through unchanged. -/
theorem parseOutput_validNormal (s : String) (j : Json)
    (hparse : jsonParse s = some j) (hval : j.isValidNormalNonempty = true) :
    parseOutput s = .passthrough j := by
  unfold parseOutput
  rw [hparse]
  cases j with
  | null => simp [Json.isValidNormalNonempty, Json.getField] at hval
  | bool b => simp [Json.isValidNormalNonempty, Json.getField] at hval
  | num l => simp [Json.isValidNormalNonempty, Json.getField] at hval
  | str s2 => simp [Json.isValidNormalNonempty, Json.getField] at hval
  | arr xs => simp [Json.isValidNormalNonempty, Json.getField] at hval
  | obj fs =>
      rcases hT : Json.getField (Json.obj fs) "type" with _ | jT
      · simp [Json.isValidNormalNonempty, hT] at hval
      · rcases hO : Json.getField (Json.obj fs) "output" with _ | jO
        · simp [Json.isValidNormalNonempty, hT, hO] at hval
        · cases jT <;> simp [Json.isValidNormalNonempty, hT, hO] at hval
          case str t =>
            cases jO <;> simp at hval
            case str o =>
              obtain ⟨ht, hne⟩ := hval
              subst ht
              simp [hT, hO, hne]

/-- On a `Comparison`-discriminant parse result whose `ComparisonArray` is
    missing, not an array, or empty, the first variant returns the semantic
    fallback message. -/
theorem parseOutput_comparisonBad (s : String) (j : Json)
    (hparse : jsonParse s = some j)
    (htype : j.getField "type" = some (.str "Comparison"))
    (harr : (match j.getField "ComparisonArray" with
             | some (.arr items) => items.isNil
             | _ => true) = true) :
    parseOutput s = .fallback comparisonFallbackMsg := by
  unfold parseOutput
  rw [hparse]
  cases j with
  | null => simp [Json.getField] at htype
  | bool b => simp [Json.getField] at htype
  | num l => simp [Json.getField] at htype
  | str s2 => simp [Json.getField] at htype
  | arr xs => simp [Json.getField] at htype
  | obj fs =>
      rcases hCA : Json.getField (Json.obj fs) "ComparisonArray" with _ | jCA
      · simp [htype, hCA]
      · rw [hCA] at harr
        cases jCA <;> simp [htype, hCA] at harr ⊢
        case arr items => simp [harr]

/-- On the echo domain, the first variant returns a fallback whose output
    is the raw input string itself. -/
theorem parseOutput_echo (s : String) (j : Json)
    (hparse : jsonParse s = some j) (hecho : echoDomain j = true) :
    parseOutput s = .fallback s := by
  unfold parseOutput
  rw [hparse]
  cases j with
  | null => simp [echoDomain] at hecho
  | bool b => simp [Json.getField]
  | num l => simp [Json.getField]
  | str s2 => simp [Json.getField]
  | arr xs => simp [Json.getField]
  | obj fs =>
      rcases hT : Json.getField (Json.obj fs) "type" with _ | jT
      · simp [hT]
      · cases jT
        case null => simp [hT]
        case bool b => simp [hT]
        case num l => simp [hT]
        case arr xs => simp [hT]
        case obj fs2 => simp [hT]
        case str t =>
          simp only [echoDomain, hT] at hecho
          by_cases hc : t = "Comparison"
          · simp [hc] at hecho
          · by_cases hn : t = "normal"
            · subst hn
              simp only [if_neg hc, if_pos rfl] at hecho ⊢
              rcases hO : Json.getField (Json.obj fs) "output" with _ | jO
              · simp [hT, hO, hc]
              · rw [hO] at hecho
                cases jO <;> simp_all [hT, hO, hc]
            · simp [hT, hc, hn]

/-- On a well-formed `Comparison` parse result, the second variant also
    passes the parsed value through unchanged. -/
theorem parseOutput2_validComparison (s : String) (j : Json)
    (hparse : jsonParse s = some j) (hval : j.isValidComparison = true) :
    parseOutput2 s = .passthrough j := by
  unfold parseOutput2
  rw [hparse]
  cases j with
  | null => simp [Json.isValidComparison, Json.getField] at hval
  | bool b => simp [Json.isValidComparison, Json.getField] at hval
  | num l => simp [Json.isValidComparison, Json.getField] at hval
  | str s2 => simp [Json.isValidComparison, Json.getField] at hval
  | arr xs => simp [Json.isValidComparison, Json.getField] at hval
  | obj fs =>
      rcases hT : Json.getField (Json.obj fs) "type" with _ | jT
      · simp [Json.isValidComparison, hT] at hval
      · rcases hCA : Json.getField (Json.obj fs) "ComparisonArray" with _ | jCA
        · simp [Json.isValidComparison, hT, hCA] at hval
        · cases jT <;> simp [Json.isValidComparison, hT, hCA] at hval
          case str t =>
            cases jCA <;> simp at hval
            case arr items =>
              obtain ⟨ht, hni⟩ := hval
              subst ht
              simp [hT, hCA, hni]

/-- On a `normal` parse result with a non-empty string `output`, the second
    variant also passes the parsed value through unchanged. -/
theorem parseOutput2_validNormal (s : String) (j : Json)
    (hparse : jsonParse s = some j) (hval : j.isValidNormalNonempty = true) :
    parseOutput2 s = .passthrough j := by
  unfold parseOutput2
  rw [hparse]
  cases j with
  | null => simp [Json.isValidNormalNonempty, Json.getField] at hval
  | bool b => simp [Json.isValidNormalNonempty, Json.getField] at hval
  | num l => simp [Json.isValidNormalNonempty, Json.getField] at hval
  | str s2 => simp [Json.isValidNormalNonempty, Json.getField] at hval
  | arr xs => simp [Json.isValidNormalNonempty, Json.getField] at hval
  | obj fs =>
      rcases hT : Json.getField (Json.obj fs) "type" with _ | jT
      · simp [Json.isValidNormalNonempty, hT] at hval
      · rcases hO : Json.getField (Json.obj fs) "output" with _ | jO
        · simp [Json.isValidNormalNonempty, hT, hO] at hval
        · cases jT <;> simp [Json.isValidNormalNonempty, hT, hO] at hval
          case str t =>
            cases jO <;> simp at hval
            case str o =>
              obtain ⟨ht, hne⟩ := hval
              subst ht
              simp [hT, hO, hne]

/-- The map callback returns the pure branch result on every non-null entry. -/
theorem formatMessage_ok (m : Json) (hm : m ≠ Json.null) :
    formatMessage m = .ok (formatEntry m) := by
  cases m <;> first | exact absurd rfl hm | rfl

/-- Mapping the callback over a history without null entries cannot throw. -/
theorem mapM_formatMessage_ok (history : List Json)
    (h : ∀ m ∈ history, m ≠ Json.null) :
    history.mapM formatMessage = .ok (history.map formatEntry) := by
  induction history with
  | nil => rfl
  | cons m t ih =>
      rw [List.mapM_cons, formatMessage_ok m (h m (List.mem_cons_self m t)),
        ih (fun x hx => h x (List.mem_cons_of_mem m hx))]
      rfl

/-! ## The claims -/

/-- C1: every input string on which `JSON.parse` fails makes
    `ManifestoOutputParser.parseOutput` (first variant) return a `Fallback`
    whose output is exactly the fixed parse-failure message, and (as long as
    the input does not coincide with that constant) the raw input text does
    not appear as the result's output. -/
theorem c1_parse_failure_fixed_message (s : String) (h : jsonParse s = none) :
    parseOutput s = .fallback parseFailureMsg ∧
      (s ≠ parseFailureMsg → parseOutput s ≠ .fallback s) := by
  have h1 : parseOutput s = .fallback parseFailureMsg := by
    unfold parseOutput
    rw [h]
  refine ⟨h1, fun hs hc => hs ?_⟩
  rw [h1] at hc
  exact (Response.fallback.inj hc).symm

/-- Witness for C1 at the raw text of end-to-end example 4. -/
theorem c1_witness :
    parseOutput "not json at all" = .fallback parseFailureMsg ∧
      ("not json at all" ≠ parseFailureMsg →
        parseOutput "not json at all" ≠ .fallback "not json at all") :=
  c1_parse_failure_fixed_message "not json at all" rfl

/-- C2: every input string parsing to a value with discriminant
    `"Comparison"` whose `ComparisonArray` is missing, not an array, or
    empty makes the Normalizer return a `Fallback` carrying the
    semantic-fallback message, which is distinct from the parse-failure
    message. -/
theorem c2_semantic_fallback_on_bad_comparison (s : String) (j : Json)
    (hparse : jsonParse s = some j)
    (htype : j.getField "type" = some (.str "Comparison"))
    (harr : (match j.getField "ComparisonArray" with
             | some (.arr items) => items.isNil
             | _ => true) = true) :
    parseOutput s = .fallback comparisonFallbackMsg ∧
      comparisonFallbackMsg ≠ parseFailureMsg :=
  ⟨parseOutput_comparisonBad s j hparse htype harr, by decide⟩

/-- Witness for C2 at the raw text of end-to-end example 3. -/
theorem c2_witness :
    parseOutput "\x7b\"type\":\"Comparison\",\"ComparisonArray\":[]\x7d"
        = .fallback comparisonFallbackMsg ∧
      comparisonFallbackMsg ≠ parseFailureMsg :=
  c2_semantic_fallback_on_bad_comparison
    "\x7b\"type\":\"Comparison\",\"ComparisonArray\":[]\x7d"
    (Json.obj (.cons "type" (.str "Comparison")
      (.cons "ComparisonArray" (.arr .nil) .nil)))
    rfl rfl rfl

/-- C3 counterexample: the claim also covers a recognized discriminant whose
    required field has the wrong type, but `(type: "Comparison",
    ComparisonArray: 0)` yields the semantic-fallback message, not an echo
    of the raw input as the claim states. -/
theorem c3_counterexample :
    jsonParse "\x7b\"type\":\"Comparison\",\"ComparisonArray\":0\x7d"
        = some (Json.obj (.cons "type" (.str "Comparison")
            (.cons "ComparisonArray" (.num "0") .nil))) ∧
      parseOutput "\x7b\"type\":\"Comparison\",\"ComparisonArray\":0\x7d"
        = .fallback comparisonFallbackMsg ∧
      comparisonFallbackMsg ≠ "\x7b\"type\":\"Comparison\",\"ComparisonArray\":0\x7d" :=
  ⟨rfl, rfl, by decide⟩

/-- C3 as amended: on every input parsing to a non-null value whose
    discriminant is neither `"Comparison"` nor `"normal"` (including
    non-object values), or whose discriminant is `"normal"` with an `output`
    field that is missing, non-string, or empty, the Normalizer returns a
    `Fallback` whose output equals the original raw input string exactly.
    (Parse results of `null` give the parse-failure fallback instead, and a
    `"Comparison"` discriminant with a malformed array gives the semantic
    fallback.) -/
theorem c3_amended_echo_domain (s : String) (j : Json)
    (hparse : jsonParse s = some j) (hecho : echoDomain j = true) :
    parseOutput s = .fallback s :=
  parseOutput_echo s j hparse hecho

/-- Witness for C3 as amended: a JSON string literal has no discriminant and
    is echoed back verbatim. -/
theorem c3_witness : parseOutput "\"hi\"" = .fallback "\"hi\"" :=
  c3_amended_echo_domain "\"hi\"" (Json.str "hi") rfl rfl

/-- C4 counterexample: `(type: "normal", output: "")` has a string-typed
    `output` field, yet the first variant does not return the parsed value
    unchanged (the truthiness test rejects the empty string and the code
    echoes the raw text as a fallback instead). -/
theorem c4_counterexample :
    jsonParse "\x7b\"type\":\"normal\",\"output\":\"\"\x7d"
        = some (Json.obj (.cons "type" (.str "normal")
            (.cons "output" (.str "") .nil))) ∧
      (Json.obj (.cons "type" (.str "normal")
        (.cons "output" (.str "") .nil))).isValidNormal = true ∧
      parseOutput "\x7b\"type\":\"normal\",\"output\":\"\"\x7d"
        ≠ .passthrough (Json.obj (.cons "type" (.str "normal")
            (.cons "output" (.str "") .nil))) :=
  ⟨rfl, rfl, by decide⟩

/-- C4 as amended: on every input parsing to a recognized well-formed shape
    — discriminant `"Comparison"` with a non-empty array field, or
    discriminant `"normal"` with a NON-EMPTY string-typed `output` field —
    the Normalizer returns the parsed value unchanged, extra fields
    included (the conclusion returns the entire parsed value `j`). -/
theorem c4_amended_identity_on_wellformed (s : String) (j : Json)
    (hparse : jsonParse s = some j)
    (hval : j.isValidComparison = true ∨ j.isValidNormalNonempty = true) :
    parseOutput s = .passthrough j := by
  rcases hval with hc | hn
  · exact parseOutput_validComparison s j hparse hc
  · exact parseOutput_validNormal s j hparse hn

/-- Witness for C4 as amended: a well-formed Comparison with an extra
    `title` field is passed through whole. -/
theorem c4_witness :
    parseOutput "\x7b\"type\":\"Comparison\",\"ComparisonArray\":[\"x\"],\"title\":\"T\"\x7d"
      = .passthrough (Json.obj (.cons "type" (.str "Comparison")
          (.cons "ComparisonArray" (.arr (.cons (.str "x") .nil))
            (.cons "title" (.str "T") .nil)))) :=
  c4_amended_identity_on_wellformed
    "\x7b\"type\":\"Comparison\",\"ComparisonArray\":[\"x\"],\"title\":\"T\"\x7d"
    (Json.obj (.cons "type" (.str "Comparison")
      (.cons "ComparisonArray" (.arr (.cons (.str "x") .nil))
        (.cons "title" (.str "T") .nil))))
    rfl (Or.inl rfl)

/-- C5: the Normalizer is total — it is a function in this embedding, and
    every exception the body can raise is absorbed by the try/catch — and
    for every input string the result is one of the three canonical shapes:
    a fallback object, a pass-through fitting the `Comparison` shape, or a
    pass-through fitting the `normal` shape (inputs parsing to null,
    numbers, booleans and arrays all land in a fallback). -/
theorem c5_normalizer_total_canonical (s : String) :
    (parseOutput s).isCanonical = true := by
  unfold parseOutput
  rcases hp : jsonParse s with _ | j
  · rfl
  · cases j
    case null => rfl
    case bool b => simp [Json.getField, Response.isCanonical]
    case num l => simp [Json.getField, Response.isCanonical]
    case str s2 => simp [Json.getField, Response.isCanonical]
    case arr xs => simp [Json.getField, Response.isCanonical]
    case obj fs =>
      rcases hT : Json.getField (Json.obj fs) "type" with _ | jT
      · simp [hT, Response.isCanonical]
      · cases jT <;> simp [hT, Response.isCanonical]
        case str t =>
          by_cases hc : t = "Comparison"
          · subst hc
            rcases hCA : Json.getField (Json.obj fs) "ComparisonArray" with _ | jCA
            · simp [hT, hCA, Response.isCanonical]
            · cases jCA <;> simp [hT, hCA, Response.isCanonical]
              rename_i items
              by_cases hni : items.isNil
              · simp [hni, Response.isCanonical]
              · simp [hni, Response.isCanonical, Json.isValidComparison, hT, hCA]
          · by_cases hn : t = "normal"
            · subst hn
              simp only [if_neg hc, if_pos rfl]
              rcases hO : Json.getField (Json.obj fs) "output" with _ | jO
              · simp [hT, hO, Response.isCanonical]
              · cases jO <;> simp [hT, hO, Response.isCanonical]
                rename_i o
                by_cases he : o = ""
                · simp [he, Response.isCanonical]
                · simp [he, Response.isCanonical, Json.isValidNormal, hT, hO]
            · simp [hc, hn, Response.isCanonical]

/-- C6: on every successful turn, the returned history is the caller's
    `chat_history` with exactly two new entries appended at the end, in
    order the human turn `(role: "human", input)` and then the normalized
    response; every original entry is preserved verbatim at its original
    position (the prefix is the original list itself), and the returned
    response equals the second appended entry. -/
theorem c6_orchestrator_appends_two_entries (input chat_history : Option Json)
    (initResult : Except String Unit) (invokeResult : Except String String)
    (resp : Response) (histOut : List Json) (calls : List CollabCall)
    (h : postQuery input chat_history initResult invokeResult
          = (.ok resp histOut, calls)) :
    histOut = historyList chat_history ++ [humanEntry input, resp.toJson] := by
  unfold postQuery at h
  split at h
  · simp at h
  · split at h
    · simp at h
    · split at h
      · simp at h
      · split at h
        · simp at h
        · simp only [Prod.mk.injEq, HandlerResult.ok.injEq] at h
          obtain ⟨⟨hr, hh⟩, _⟩ := h
          subst hr
          exact hh.symm

/-- Witness for C6: a successful turn from the empty history with input
    `"Hello"` and raw agent text `(type: "normal", output: "hi")`. -/
theorem c6_witness :
    [humanEntry (some (.str "Hello")),
      Json.obj (.cons "type" (.str "normal") (.cons "output" (.str "hi") .nil))]
      = historyList (some (.arr .nil))
        ++ [humanEntry (some (.str "Hello")),
            (Response.passthrough (Json.obj (.cons "type" (.str "normal")
              (.cons "output" (.str "hi") .nil)))).toJson] :=
  c6_orchestrator_appends_two_entries (some (.str "Hello")) (some (.arr .nil))
    (.ok ()) (.ok "\x7b\"type\":\"normal\",\"output\":\"hi\"\x7d")
    (Response.passthrough (Json.obj (.cons "type" (.str "normal")
      (.cons "output" (.str "hi") .nil))))
    [humanEntry (some (.str "Hello")),
      Json.obj (.cons "type" (.str "normal") (.cons "output" (.str "hi") .nil))]
    [.agentInit, .agentInvoke] rfl

/-- C7 counterexample: on the single-entry list `[null]` the History
    Formatter throws a TypeError (reading `message.type` of `null`) instead
    of contributing zero entries without throwing, so it is not total on
    arbitrary entry lists. -/
theorem c7_counterexample :
    formatConversationHistory [Json.null] = .error nullTypeErrorMsg ∧
      formatConversationHistory [Json.null] ≠ .ok [] :=
  ⟨rfl, fun hcontra => nomatch hcontra⟩

/-- C7 as amended: on every entry list containing no `null` entry the
    History Formatter never throws and maps entries in source order —
    `type = "Comparison"` to one assistant message rendering `"Comparison: "`
    followed by `JSON.stringify(ComparisonArray, null, 2)`, otherwise
    `type = "normal"` to one assistant message carrying the entry's
    `output`, otherwise `role = "human"` to one human message carrying the
    entry's `input`, and every other entry (a persisted `Fallback`
    included) to zero entries, as `formatEntry` states case by case.
    A `null` entry, however, makes the map callback throw. -/
theorem c7_amended_formatter_total_on_nonnull (history : List Json)
    (h : ∀ m ∈ history, m ≠ Json.null) :
    formatConversationHistory history = .ok (history.filterMap formatEntry) := by
  unfold formatConversationHistory
  rw [mapM_formatMessage_ok history h]
  simp [List.filterMap_map]

/-- Witness for C7 as amended: a human turn, a normal turn, a persisted
    fallback (dropped), and a stray string (dropped). -/
theorem c7_witness :
    formatConversationHistory
      [Json.obj (.cons "role" (.str "human") (.cons "input" (.str "Hi") .nil)),
        Json.obj (.cons "type" (.str "normal") (.cons "output" (.str "Yo") .nil)),
        Json.obj (.cons "type" (.str "fallback") (.cons "output" (.str "oops") .nil)),
        Json.str "junk"]
      = .ok [⟨"human", some (.str "Hi")⟩, ⟨"assistant", some (.str "Yo")⟩] :=
  (c7_amended_formatter_total_on_nonnull
    [Json.obj (.cons "role" (.str "human") (.cons "input" (.str "Hi") .nil)),
      Json.obj (.cons "type" (.str "normal") (.cons "output" (.str "Yo") .nil)),
      Json.obj (.cons "type" (.str "fallback") (.cons "output" (.str "oops") .nil)),
      Json.str "junk"]
    (by decide)).trans (by rfl)

/-- C8 counterexample: the body `(input: 5, chat_history: [])` has an
    `input` that is not a non-empty string, so the claim requires rejection
    before any collaborator runs; the code accepts any truthy value, does
    not answer 400, and invokes both collaborators. -/
theorem c8_counterexample :
    isNonEmptyStringOpt (some (.num "5")) = false ∧
      (postQuery (some (.num "5")) (some (.arr .nil)) (.ok ()) (.ok "\x7b\x7d")).2
        = [CollabCall.agentInit, CollabCall.agentInvoke] ∧
      (postQuery (some (.num "5")) (some (.arr .nil)) (.ok ()) (.ok "\x7b\x7d")).1
        ≠ .badRequest requiredErrorMsg :=
  ⟨rfl, rfl, by decide⟩

/-- C8 as amended: the handler answers 400 with an empty collaborator trace
    exactly when `input` is falsy (missing, null, false, zero, or the empty
    string) or `chat_history` is not an array; a truthy non-string `input`
    is accepted. -/
theorem c8_amended_reject_iff_falsy_or_nonarray (input chat_history : Option Json)
    (initResult : Except String Unit) (invokeResult : Except String String) :
    postQuery input chat_history initResult invokeResult
        = (.badRequest requiredErrorMsg, [])
      ↔ (truthy input = false ∨ isArrayOpt chat_history = false) := by
  constructor
  · intro h
    by_contra hcon
    push_neg at hcon
    obtain ⟨h1, h2⟩ := hcon
    replace h1 : truthy input = true := by revert h1; cases truthy input <;> simp
    replace h2 : isArrayOpt chat_history = true := by
      revert h2; cases isArrayOpt chat_history <;> simp
    unfold postQuery at h
    rw [h1, h2] at h
    simp at h
    split at h
    · simp at h
    · split at h
      · simp at h
      · split at h
        · simp at h
        · simp at h
  · intro h
    unfold postQuery
    rcases h with h | h <;> simp [h]

/-- Witness for C8 as amended: a missing `input` is rejected with 400 and
    no collaborator call. -/
theorem c8_witness :
    postQuery none (some (.arr .nil)) (.ok ()) (.ok "x")
      = (.badRequest requiredErrorMsg, []) :=
  (c8_amended_reject_iff_falsy_or_nonarray none (some (.arr .nil))
    (.ok ()) (.ok "x")).mpr (Or.inl rfl)

/-- C9: in the first variant the `await initializeAgent()` of line 243 sits
    outside the try block, so an agent-acquisition failure escapes the
    handler as an unhandled rejection — no generic processing-error response
    is produced by the handler for that failure, contradicting the claim
    (and the spec, whose intent the second variant implements by moving the
    call inside the try).  An agent-invocation failure, by contrast, is
    answered with the generic 500 error as the claim states. -/
theorem c9_agent_init_failure_escapes_handler :
    postQuery (some (.str "Hello")) (some (.arr .nil))
        (.error "MongoNetworkError") (.ok "x")
      = (.uncaught "MongoNetworkError", [CollabCall.agentInit]) ∧
    postQuery (some (.str "Hello")) (some (.arr .nil))
        (.ok ()) (.error "AgentInvocationFailed")
      = (.serverError processingErrorMsg,
         [CollabCall.agentInit, CollabCall.agentInvoke]) :=
  ⟨rfl, rfl⟩

/-- C10 counterexample: on the raw text `(type: "Comparison",
    ComparisonArray: [])` the first variant returns the semantic-fallback
    message but the second variant returns the parse-failure message, so
    the two `parseOutput` implementations are not extensionally equal. -/
theorem c10_counterexample :
    parseOutput "\x7b\"type\":\"Comparison\",\"ComparisonArray\":[]\x7d"
        = .fallback comparisonFallbackMsg ∧
      parseOutput2 "\x7b\"type\":\"Comparison\",\"ComparisonArray\":[]\x7d"
        = .fallback parseFailureMsg ∧
      parseOutput "\x7b\"type\":\"Comparison\",\"ComparisonArray\":[]\x7d"
        ≠ parseOutput2 "\x7b\"type\":\"Comparison\",\"ComparisonArray\":[]\x7d" :=
  ⟨rfl, rfl, by decide⟩

/-- C10 as amended: the two variants agree on every input that fails to
    parse or parses to `null`, and on every input they pass through (a
    well-formed `Comparison`, or a `normal` whose `output` is a non-empty
    string); they differ on the semantic-fallback and echo branches. -/
theorem c10_amended_variants_agree_domain (s : String)
    (h : variantsAgree s = true) : parseOutput s = parseOutput2 s := by
  unfold variantsAgree at h
  rcases hp : jsonParse s with _ | j
  · unfold parseOutput parseOutput2
    rw [hp]
  · rw [hp] at h
    by_cases hnull : j = Json.null
    · subst hnull
      unfold parseOutput parseOutput2
      rw [hp]
    · have hv : (j.isValidComparison || j.isValidNormalNonempty) = true := by
        cases j <;> simp_all
      rcases Bool.or_eq_true_iff.mp hv with hc | hn
      · rw [parseOutput_validComparison s j hp hc,
          parseOutput2_validComparison s j hp hc]
      · rw [parseOutput_validNormal s j hp hn,
          parseOutput2_validNormal s j hp hn]

/-- Witness for C10 as amended: both variants return the fixed
    parse-failure fallback on unparseable text. -/
theorem c10_witness :
    parseOutput "not valid json" = parseOutput2 "not valid json" :=
  c10_amended_variants_agree_domain "not valid json" rfl

end ElectionInfo
